import Mathlib

/-!
Shallow embedding of `onnxruntime/core/providers/cuda/cuda_kernel.h`
(`onnxruntime::cuda::CudaKernel` and its nested `CudaAsyncBuffer<T>`).

External CUDA runtime calls (`cudaGetLastError`, `cudaStreamAddCallback`,
`cudaMemcpyAsync`) and the execution-provider services the header consumes are
modelled as explicit state passing over a device/provider state.  A CUDA stream
is modelled as an ordered log of enqueued entries; the stream executes its
entries in log order, each exactly once.
-/

namespace Onnx

/-- `cudaError_t`: CUDA runtime error codes, with `0 = cudaSuccess`. -/
abbrev CudaErr := Nat

/-- The success code of the CUDA runtime. -/
def cudaSuccess : CudaErr := 0

/-- `onnxruntime::Status`, the typed outcome of a kernel call.  `ok` is
`Status::OK()`; `fail msg` is a failing status built by `ORT_MAKE_STATUS` with
message `msg`; `notImplemented msg` is the unimplemented-operation outcome. -/
inductive Status where
  | ok : Status
  | fail : String → Status
  | notImplemented : String → Status
deriving DecidableEq, Repr

/-- `Status::IsOK()`. -/
def Status.IsOK : Status → Bool
  | .ok => true
  | _ => false

/-- Modelled from the spec: the `ORT_NOT_IMPLEMENTED` macro (defined in
`core/common/common.h`, which is not under src/) makes the blocking entry point
"fail fast with an unimplemented-operation outcome". -/
def ORT_NOT_IMPLEMENTED (msg : String) : Status := Status.notImplemented msg

/-- One entry enqueued on a CUDA stream: a device operation (kernel launch,
asynchronous copy, ...) identified by a tag, or a host-callback registration
made by `cudaStreamAddCallback`.  In `callback box done`, `box` identifies the
heap-boxed `DoneCallback` object (`new DoneCallback(done)`) and `done` the
completion continuation it boxes; the `cudaStreamCallback` trampoline invokes
the boxed continuation once when the stream reaches the entry. -/
inductive Entry where
  | op : Nat → Entry
  | callback : Nat → Nat → Entry
deriving DecidableEq, Repr

/-- Device-runtime state visible to `ComputeAsync`: the sticky last-error word
read by `cudaGetLastError`, the global enqueue log (stream handle × entry, in
issue order — a stream executes the entries bearing its handle in this order,
each exactly once), and a counter supplying fresh heap-box identities. -/
structure DevState where
  lastError : CudaErr
  log : List (Nat × Entry)
  nextBox : Nat
deriving DecidableEq, Repr

/-- External CUDA runtime: `cudaGetLastError` returns the sticky error word and
resets it to `cudaSuccess`. -/
def cudaGetLastError (d : DevState) : CudaErr × DevState :=
  (d.lastError, { d with lastError := cudaSuccess })

/-- External CUDA runtime: `cudaStreamAddCallback(stream, trampoline, box, 0)`
appends a callback entry to the stream's log; the registration itself is
accepted by the runtime. -/
def cudaStreamAddCallback (stream box done : Nat) (d : DevState) :
    CudaErr × DevState :=
  (cudaSuccess, { d with log := d.log ++ [(stream, Entry.callback box done)] })

/-- `OpKernelContext`, reduced to what the header consumes from it:
`GetComputeStream()->handle`. -/
structure OpKernelContext where
  computeStreamHandle : Nat
deriving DecidableEq, Repr

/-- The mutable per-instance state of `CudaKernel`: the cached `stream_` field
(the `stream_mutex_` lock is sequentialized away in this per-call model). -/
structure CudaKernelState where
  stream : Nat
deriving DecidableEq, Repr

/-- `CudaKernel::Stream()`: read the cached stream field. -/
def CudaKernelState.Stream (k : CudaKernelState) : Nat := k.stream

/-- The kernel-specific virtual `ComputeInternal`, abstracted as a function of
the value `Stream()` returns during the call and of the device state; it
returns a `Status` and the device state it leaves behind (it may enqueue
operations on streams). -/
abbrev ComputeInternalFn := Nat → DevState → Status × DevState

/-- `CudaKernel::ComputeAsync`, statement by statement: set `stream_` from the
context's compute stream (under the lock), run `ComputeInternal`; if its status
is OK, read `cudaGetLastError` and, when it is not `cudaSuccess`, return the
`ORT_MAKE_STATUS(ONNXRUNTIME, FAIL, "CUDA error ", name, ":", string)` outcome;
otherwise fall through: heap-box the `DoneCallback` and register it on
`Stream()` via `cudaStreamAddCallback`, then return `Status::OK()`.  `errName`
and `errString` abstract `cudaGetErrorName` / `cudaGetErrorString`. -/
def ComputeAsync (ci : ComputeInternalFn) (errName errString : CudaErr → String)
    (ctx : OpKernelContext) (done : Nat) (k : CudaKernelState) (d : DevState) :
    Status × CudaKernelState × DevState :=
  let k := { k with stream := ctx.computeStreamHandle }
  let sd := ci k.Stream d
  let step : Option Status × DevState :=
    if sd.1.IsOK then
      let ed := cudaGetLastError sd.2
      if ed.1 ≠ cudaSuccess then
        (some (Status.fail
          ("CUDA error " ++ errName ed.1 ++ ":" ++ errString ed.1)), ed.2)
      else (none, ed.2)
    else (none, sd.2)
  match step with
  | (some st, d) => (st, k, d)
  | (none, d) =>
    let box := d.nextBox
    let d := { d with nextBox := d.nextBox + 1 }
    (Status.ok, k, (cudaStreamAddCallback k.Stream box done d).2)

/-- `CudaKernel::Compute`: the blocking-style entry point; its body is exactly
`ORT_NOT_IMPLEMENTED(__FUNCTION__, " is not implemented")`, so it neither
invokes `ComputeInternal` nor touches the device state. -/
def Compute (ci : ComputeInternalFn) (ctx : OpKernelContext)
    (k : CudaKernelState) (d : DevState) : Status × DevState :=
  (ORT_NOT_IMPLEMENTED "Compute is not implemented", d)

/-- A pending asynchronous host-to-device copy: the stream it was enqueued on,
the destination device buffer id, and the host slots the copy reads (the
deferred-release discipline keeps the pinned source valid and unchanged until
the device executes the copy, so the slots are recorded at enqueue time). -/
structure PendingCopy (T : Type) where
  stream : Nat
  dst : Nat
  src : List T
deriving DecidableEq

/-- Provider-side state consumed by `CudaAsyncBuffer`: device-resident buffers
indexed by id (a slot holds `none` until the device writes it), the
deferred-release pool of pinned host pointers handed over through
`AddDeferredReleaseCPUPtr`, and the asynchronous copies enqueued but not yet
executed, in enqueue order. -/
structure ProviderState (T : Type) where
  devBufs : List (List (Option T))
  deferredPool : List Nat
  pending : List (PendingCopy T)
deriving DecidableEq

/-- `CudaKernel::AddDeferredReleaseCPUPtr(p)`: hand the pinned host pointer to
the provider's deferred-release pool (`provider_->AddDeferredReleaseCPUPtr`). -/
def AddDeferredReleaseCPUPtr {T : Type} (p : Nat) (ps : ProviderState T) :
    ProviderState T :=
  { ps with deferredPool := ps.deferredPool ++ [p] }

/-- `CudaKernel::GetScratchBuffer<T>(count)`: obtain a fresh device-resident
buffer of `count` uninitialized slots from the provider, returning its id. -/
def GetScratchBuffer {T : Type} (count : Nat) (ps : ProviderState T) :
    Nat × ProviderState T :=
  (ps.devBufs.length,
   { ps with devBufs := ps.devBufs ++ [List.replicate count none] })

/-- External CUDA runtime: `cudaMemcpyAsync(dst, src, n*sizeof(T),
cudaMemcpyHostToDevice, stream)`.  When the runtime accepts the enqueue
(`err = cudaSuccess`) the copy of the first `n` host slots becomes pending on
`stream`; otherwise the runtime reports `err` and nothing is enqueued. -/
def cudaMemcpyAsyncH2D {T : Type} (dst : Nat) (src : List T) (n : Nat)
    (stream : Nat) (err : CudaErr) (ps : ProviderState T) :
    CudaErr × ProviderState T :=
  if err = cudaSuccess then
    (cudaSuccess, { ps with pending := ps.pending ++ [⟨stream, dst, src.take n⟩] })
  else (err, ps)

/-- Modelled from the spec: the `CUDA_RETURN_IF_ERROR` macro (from
`cuda_common.h` / `cuda_call.h`, which are not under src/) makes `CopyToGpu`
"return a device-error outcome if the enqueue fails", embedding the device
error code. -/
def cudaFailStatus (err : CudaErr) : Status :=
  Status.fail ("CUDA failure " ++ toString err)

/-- `CudaKernel::CudaAsyncBuffer<T>` state: the owned device copy (`gpu_copy_`,
a buffer id once allocated), the owned pinned host copy (`cpu_pinned_copy_`, a
pointer id paired with its slots), and `count_`. -/
structure CudaAsyncBuffer (T : Type) where
  gpu_copy_ : Option Nat
  cpu_pinned_copy_ : Option (Nat × List T)
  count_ : Nat
deriving DecidableEq

/-- `CudaKernel::AllocateBufferOnCPUPinned<T>(count)` together with the pinned
allocator behind it (external): it may fail (`none`, the C++ nullptr), or
return a fresh pinned region as a pointer id plus the uninitialized slots the
region happens to hold. -/
abbrev HostPinnedAlloc (T : Type) := Nat → Option (Nat × List T)

/-- C++ exceptions thrown by the core (`throw std::runtime_error(msg)`). -/
inductive CppExn where
  | runtimeError : String → CppExn
deriving DecidableEq, Repr

/-- `CudaAsyncBuffer::AllocCpuPtr(count)`: pinned-allocate `count` slots; on a
null result throw `std::runtime_error("alloc failed")`, otherwise install the
host copy and set `count_`. -/
def AllocCpuPtr {T : Type} (alloc : HostPinnedAlloc T) (b : CudaAsyncBuffer T)
    (count : Nat) : Except CppExn (CudaAsyncBuffer T) :=
  match alloc count with
  | none => .error (.runtimeError "alloc failed")
  | some pr => .ok { b with cpu_pinned_copy_ := some pr, count_ := count }

/-- `CudaAsyncBuffer(op_kernel)`: the empty constructor. -/
def CudaAsyncBuffer.mk0 (T : Type) : CudaAsyncBuffer T :=
  { gpu_copy_ := none, cpu_pinned_copy_ := none, count_ := 0 }

/-- `CudaAsyncBuffer(op_kernel, count)`: delegate to the empty constructor,
then `AllocCpuPtr(count)`. -/
def CudaAsyncBuffer.mkSized {T : Type} (alloc : HostPinnedAlloc T)
    (count : Nat) : Except CppExn (CudaAsyncBuffer T) :=
  AllocCpuPtr alloc (CudaAsyncBuffer.mk0 T) count

/-- The fill loop of the fill constructor: `T* p = CpuPtr();` then `count`
iterations of `*p++ = value;`, i.e. write `value` into slots `i, i+1, ...`. -/
def fillWrites {T : Type} (buf : List T) (value : T) (i : Nat) : Nat → List T
  | 0 => buf
  | n + 1 => fillWrites (buf.set i value) value (i + 1) n

/-- `CudaAsyncBuffer(op_kernel, value, count)`: delegate to the sized
constructor, then run the fill loop over the host copy through `CpuPtr()`
(present whenever the delegated construction did not throw). -/
def CudaAsyncBuffer.mkFill {T : Type} (alloc : HostPinnedAlloc T) (value : T)
    (count : Nat) : Except CppExn (CudaAsyncBuffer T) :=
  (CudaAsyncBuffer.mkSized alloc count).map fun b =>
    match b.cpu_pinned_copy_ with
    | none => b
    | some pr =>
      { b with cpu_pinned_copy_ := some (pr.1, fillWrites pr.2 value 0 count) }

/-- `memcpy(dst, src, n * sizeof(T))` on typed slots: overwrite the first `n`
slots of `dst` with those of `src`. -/
def memcpyBytes {T : Type} (dst src : List T) (n : Nat) : List T :=
  src.take n ++ dst.drop n

/-- `CudaAsyncBuffer(op_kernel, vec)`: delegate to the sized constructor at
`vec.size()`, then `memcpy` the span's elements into the host copy. -/
def CudaAsyncBuffer.mkFromSpan {T : Type} (alloc : HostPinnedAlloc T)
    (vec : List T) : Except CppExn (CudaAsyncBuffer T) :=
  (CudaAsyncBuffer.mkSized alloc vec.length).map fun b =>
    match b.cpu_pinned_copy_ with
    | none => b
    | some pr =>
      { b with cpu_pinned_copy_ := some (pr.1, memcpyBytes pr.2 vec vec.length) }

/-- `CudaAsyncBuffer::CopyToGpu()`: no-op without a host copy; otherwise
allocate the device scratch buffer of `count_` slots, `cudaMemcpyAsync` the
host copy to it on the kernel's `Stream()` — returning the device-error
outcome if the enqueue fails (`CUDA_RETURN_IF_ERROR`) — then release the
pinned pointer into the deferred-release pool via `AddDeferredReleaseCPUPtr`
(after which the buffer no longer owns the host copy) and return
`Status::OK()`. -/
def CopyToGpu {T : Type} (stream : Nat) (memcpyErr : CudaErr)
    (b : CudaAsyncBuffer T) (ps : ProviderState T) :
    Status × CudaAsyncBuffer T × ProviderState T :=
  match b.cpu_pinned_copy_ with
  | none => (Status.ok, b, ps)
  | some pr =>
    let g := GetScratchBuffer b.count_ ps
    let b := { b with gpu_copy_ := some g.1 }
    let r := cudaMemcpyAsyncH2D g.1 pr.2 b.count_ stream memcpyErr g.2
    if r.1 ≠ cudaSuccess then (cudaFailStatus r.1, b, r.2)
    else
      (Status.ok, { b with cpu_pinned_copy_ := none },
       AddDeferredReleaseCPUPtr pr.1 r.2)

/-- The device executing one pending copy: overwrite the destination buffer's
first `src.length` slots with the copied host values. -/
def applyCopy {T : Type} (bufs : List (List (Option T))) (c : PendingCopy T) :
    List (List (Option T)) :=
  bufs.set c.dst (c.src.map some ++ (bufs.getD c.dst []).drop c.src.length)

/-- Device progress: execute every pending copy, in enqueue order. -/
def runPending {T : Type} (ps : ProviderState T) : ProviderState T :=
  { ps with devBufs := ps.pending.foldl applyCopy ps.devBufs, pending := [] }

/-- C1: evaluation at a failing compute routine.  With a `ComputeInternal`
that returns a failing `Status` ("boom"), `ComputeAsync` nevertheless returns
`Status.ok` to its caller — the failure is swallowed, not propagated — and the
completion callback is still enqueued on the stream.  This contradicts the
claim on both counts; the code skips the error check when the status is not OK
but never returns that status. -/
theorem computeAsync_swallows_internal_failure :
    ComputeAsync (fun _ d => (Status.fail "boom", d)) (fun _ => "n")
        (fun _ => "m") ⟨5⟩ 7 ⟨0⟩ ⟨cudaSuccess, [], 0⟩
      = (Status.ok, ⟨5⟩, ⟨cudaSuccess, [(5, Entry.callback 0 7)], 1⟩) := by
  rfl

/-- C4: the blocking entry point `Compute` returns the unimplemented-operation
outcome and leaves the device state untouched, uniformly in the compute
routine `ci` — so `ComputeInternal` is never invoked and has no effect. -/
theorem compute_returns_not_implemented (ci : ComputeInternalFn)
    (ctx : OpKernelContext) (k : CudaKernelState) (d : DevState) :
    Compute ci ctx k d = (Status.notImplemented "Compute is not implemented", d) :=
  rfl

/-- C2: when `ComputeInternal` succeeds but `cudaGetLastError` reports a
non-success error, `ComputeAsync` returns the device-error outcome embedding
the error's name and message, and the stream log is exactly as
`ComputeInternal` left it — no completion callback is enqueued, so none can
fire. -/
theorem computeAsync_post_check_device_error (ci : ComputeInternalFn)
    (errName errString : CudaErr → String) (ctx : OpKernelContext) (done : Nat)
    (k : CudaKernelState) (d : DevState)
    (hok : (ci ctx.computeStreamHandle d).1.IsOK = true)
    (herr : (ci ctx.computeStreamHandle d).2.lastError ≠ cudaSuccess) :
    ComputeAsync ci errName errString ctx done k d
      = (Status.fail ("CUDA error "
            ++ errName (ci ctx.computeStreamHandle d).2.lastError ++ ":"
            ++ errString (ci ctx.computeStreamHandle d).2.lastError),
         ⟨ctx.computeStreamHandle⟩,
         { (ci ctx.computeStreamHandle d).2 with lastError := cudaSuccess }) := by
  simp [ComputeAsync, CudaKernelState.Stream, cudaGetLastError, hok, herr]

/-- Witness for C2 at a concrete failing last-error state. -/
theorem computeAsync_post_check_device_error_witness :
    ComputeAsync (fun _ d => (Status.ok, { d with lastError := 3 }))
        (fun _ => "n") (fun _ => "m") ⟨4⟩ 9 ⟨0⟩ ⟨cudaSuccess, [], 0⟩
      = (Status.fail ("CUDA error " ++ "n" ++ ":" ++ "m"), ⟨4⟩,
         ⟨cudaSuccess, [], 0⟩) :=
  computeAsync_post_check_device_error
    (fun _ d => (Status.ok, { d with lastError := 3 }))
    (fun _ => "n") (fun _ => "m") ⟨4⟩ 9 ⟨0⟩ ⟨cudaSuccess, [], 0⟩
    (by decide) (by decide)

/-- C7: a successful `CopyToGpu` on a buffer holding a host pinned copy hands
exactly that pointer to the deferred-release pool, exactly once (the pool is
extended by the single element `p`), and afterwards the buffer no longer owns
the host copy; no synchronous free exists on this path. -/
theorem copyToGpu_defers_release {T : Type} (stream : Nat)
    (b : CudaAsyncBuffer T) (ps : ProviderState T) (p : Nat) (data : List T)
    (hcpu : b.cpu_pinned_copy_ = some (p, data)) :
    (CopyToGpu stream cudaSuccess b ps).1 = Status.ok ∧
    (CopyToGpu stream cudaSuccess b ps).2.1.cpu_pinned_copy_ = none ∧
    (CopyToGpu stream cudaSuccess b ps).2.2.deferredPool
      = ps.deferredPool ++ [p] := by
  simp [CopyToGpu, hcpu, cudaMemcpyAsyncH2D, GetScratchBuffer,
    AddDeferredReleaseCPUPtr]

/-- Witness for C7 at a concrete buffer and provider state. -/
theorem copyToGpu_defers_release_witness :
    (CopyToGpu 2 cudaSuccess (⟨none, some (3, [1, 2]), 2⟩ : CudaAsyncBuffer Nat)
        ⟨[], [], []⟩).1 = Status.ok ∧
    (CopyToGpu 2 cudaSuccess (⟨none, some (3, [1, 2]), 2⟩ : CudaAsyncBuffer Nat)
        ⟨[], [], []⟩).2.1.cpu_pinned_copy_ = none ∧
    (CopyToGpu 2 cudaSuccess (⟨none, some (3, [1, 2]), 2⟩ : CudaAsyncBuffer Nat)
        ⟨[], [], []⟩).2.2.deferredPool = [] ++ [3] :=
  copyToGpu_defers_release 2 ⟨none, some (3, [1, 2]), 2⟩ ⟨[], [], []⟩ 3 [1, 2]
    rfl

/-- C8: when the pinned allocator returns no memory, `AllocCpuPtr` — and hence
the pre-sized constructor that delegates to it — aborts by throwing
`std::runtime_error("alloc failed")`, a value of the exception type, not of
the `Status` outcome type; in particular it is not a recoverable
success-or-failure outcome and is distinct from the device-error `Status`. -/
theorem allocCpuPtr_failure_throws {T : Type} (alloc : HostPinnedAlloc T)
    (b : CudaAsyncBuffer T) (count : Nat) (h : alloc count = none) :
    AllocCpuPtr alloc b count = .error (.runtimeError "alloc failed") ∧
    CudaAsyncBuffer.mkSized alloc count
      = .error (.runtimeError "alloc failed") := by
  simp [AllocCpuPtr, CudaAsyncBuffer.mkSized, h]

/-- Witness for C8 at a concrete always-failing allocator. -/
theorem allocCpuPtr_failure_throws_witness :
    AllocCpuPtr (fun _ => (none : Option (Nat × List Nat)))
        (CudaAsyncBuffer.mk0 Nat) 5 = .error (.runtimeError "alloc failed") ∧
    CudaAsyncBuffer.mkSized (fun _ => (none : Option (Nat × List Nat))) 5
      = .error (.runtimeError "alloc failed") :=
  allocCpuPtr_failure_throws (fun _ => none) (CudaAsyncBuffer.mk0 Nat) 5 rfl

/-- C10: when the runtime rejects the asynchronous copy enqueue, `CopyToGpu`
returns the device-error outcome, nothing is handed to the deferred-release
pool, no copy is left pending, and the staging buffer still owns its host
pinned copy. -/
theorem copyToGpu_enqueue_failure {T : Type} (stream : Nat) (err : CudaErr)
    (b : CudaAsyncBuffer T) (ps : ProviderState T) (p : Nat) (data : List T)
    (hcpu : b.cpu_pinned_copy_ = some (p, data)) (herr : err ≠ cudaSuccess) :
    (CopyToGpu stream err b ps).1 = cudaFailStatus err ∧
    (CopyToGpu stream err b ps).2.1.cpu_pinned_copy_ = some (p, data) ∧
    (CopyToGpu stream err b ps).2.2.deferredPool = ps.deferredPool ∧
    (CopyToGpu stream err b ps).2.2.pending = ps.pending := by
  simp [CopyToGpu, hcpu, cudaMemcpyAsyncH2D, GetScratchBuffer, herr]

/-- Witness for C10 at a concrete rejected enqueue. -/
theorem copyToGpu_enqueue_failure_witness :
    (CopyToGpu 2 1 (⟨none, some (3, [1, 2]), 2⟩ : CudaAsyncBuffer Nat)
        ⟨[], [], []⟩).1 = cudaFailStatus 1 ∧
    (CopyToGpu 2 1 (⟨none, some (3, [1, 2]), 2⟩ : CudaAsyncBuffer Nat)
        ⟨[], [], []⟩).2.1.cpu_pinned_copy_ = some (3, [1, 2]) ∧
    (CopyToGpu 2 1 (⟨none, some (3, [1, 2]), 2⟩ : CudaAsyncBuffer Nat)
        ⟨[], [], []⟩).2.2.deferredPool = [] ∧
    (CopyToGpu 2 1 (⟨none, some (3, [1, 2]), 2⟩ : CudaAsyncBuffer Nat)
        ⟨[], [], []⟩).2.2.pending = [] :=
  copyToGpu_enqueue_failure 2 1 ⟨none, some (3, [1, 2]), 2⟩ ⟨[], [], []⟩ 3
    [1, 2] rfl (by decide)

/-- C3: any `ComputeAsync` call that returns success appends to the stream log
exactly the operations its compute routine enqueued (`new`), followed by one
single callback registration, on the call's stream, as the log's last entry —
so the callback is ordered strictly after every operation enqueued during the
call, and since a stream executes each logged entry exactly once, it fires
exactly once for the call. -/
theorem computeAsync_success_callback_once (ci : ComputeInternalFn)
    (errName errString : CudaErr → String) (ctx : OpKernelContext) (done : Nat)
    (k : CudaKernelState) (d : DevState) (new : List (Nat × Entry))
    (hmono : (ci ctx.computeStreamHandle d).2.log = d.log ++ new)
    (hok : (ComputeAsync ci errName errString ctx done k d).1 = Status.ok) :
    ∃ box, (ComputeAsync ci errName errString ctx done k d).2.2.log
      = d.log ++ new ++ [(ctx.computeStreamHandle, Entry.callback box done)] := by
  by_cases h1 : (ci ctx.computeStreamHandle d).1.IsOK = true
  · by_cases h2 : (ci ctx.computeStreamHandle d).2.lastError = cudaSuccess
    · refine ⟨(ci ctx.computeStreamHandle d).2.nextBox, ?_⟩
      simp [ComputeAsync, CudaKernelState.Stream, cudaGetLastError,
        cudaStreamAddCallback, h1, h2, hmono, List.append_assoc]
    · exfalso
      simp [ComputeAsync, CudaKernelState.Stream, cudaGetLastError, h1, h2]
        at hok
  · refine ⟨(ci ctx.computeStreamHandle d).2.nextBox, ?_⟩
    simp [ComputeAsync, CudaKernelState.Stream, cudaStreamAddCallback, h1,
      hmono, List.append_assoc]

/-- Witness for C3 at a concrete compute routine enqueuing one device op. -/
theorem computeAsync_success_callback_once_witness :
    ∃ box,
      (ComputeAsync
          (fun s d => (Status.ok, { d with log := d.log ++ [(s, Entry.op 1)] }))
          (fun _ => "n") (fun _ => "m") ⟨5⟩ 7 ⟨0⟩ ⟨cudaSuccess, [], 0⟩).2.2.log
        = [] ++ [(5, Entry.op 1)] ++ [(5, Entry.callback box 7)] :=
  computeAsync_success_callback_once
    (fun s d => (Status.ok, { d with log := d.log ++ [(s, Entry.op 1)] }))
    (fun _ => "n") (fun _ => "m") ⟨5⟩ 7 ⟨0⟩ ⟨cudaSuccess, [], 0⟩
    [(5, Entry.op 1)] rfl rfl

/-- C9: `ComputeAsync` re-sets the cached stream field from the context at the
top of the call: its entire result is independent of the previously cached
value, the kernel state it leaves caches the context's stream (so `Stream()`
returns it for every enqueue made during the call, the model invoking the
compute routine at that very handle), and whatever the call itself appends to
the log beyond the compute routine's operations targets the context's
stream. -/
theorem computeAsync_stream_rebinding (ci : ComputeInternalFn)
    (errName errString : CudaErr → String) (ctx : OpKernelContext) (done : Nat)
    (k : CudaKernelState) (d : DevState) (new : List (Nat × Entry))
    (hmono : (ci ctx.computeStreamHandle d).2.log = d.log ++ new) :
    ComputeAsync ci errName errString ctx done k d
      = ComputeAsync ci errName errString ctx done ⟨ctx.computeStreamHandle⟩ d ∧
    (ComputeAsync ci errName errString ctx done k d).2.1.Stream
      = ctx.computeStreamHandle ∧
    ∃ tail, (ComputeAsync ci errName errString ctx done k d).2.2.log
        = d.log ++ new ++ tail ∧
      ∀ e ∈ tail, e.1 = ctx.computeStreamHandle := by
  refine ⟨rfl, ?_, ?_⟩
  · by_cases h1 : (ci ctx.computeStreamHandle d).1.IsOK = true
    · by_cases h2 : (ci ctx.computeStreamHandle d).2.lastError = cudaSuccess
      · simp [ComputeAsync, CudaKernelState.Stream, cudaGetLastError,
          cudaStreamAddCallback, h1, h2]
      · simp [ComputeAsync, CudaKernelState.Stream, cudaGetLastError, h1, h2]
    · simp [ComputeAsync, CudaKernelState.Stream, cudaStreamAddCallback, h1]
  · by_cases h1 : (ci ctx.computeStreamHandle d).1.IsOK = true
    · by_cases h2 : (ci ctx.computeStreamHandle d).2.lastError = cudaSuccess
      · refine ⟨[(ctx.computeStreamHandle,
          Entry.callback (ci ctx.computeStreamHandle d).2.nextBox done)], ?_, ?_⟩
        · simp [ComputeAsync, CudaKernelState.Stream, cudaGetLastError,
            cudaStreamAddCallback, h1, h2, hmono, List.append_assoc]
        · simp
      · refine ⟨[], ?_, ?_⟩
        · simp [ComputeAsync, CudaKernelState.Stream, cudaGetLastError, h1, h2,
            hmono]
        · simp
    · refine ⟨[(ctx.computeStreamHandle,
        Entry.callback (ci ctx.computeStreamHandle d).2.nextBox done)], ?_, ?_⟩
      · simp [ComputeAsync, CudaKernelState.Stream, cudaStreamAddCallback, h1,
          hmono, List.append_assoc]
      · simp

/-- Witness for C9 at a concrete compute routine enqueuing one device op. -/
theorem computeAsync_stream_rebinding_witness :
    ComputeAsync
        (fun s d => (Status.ok, { d with log := d.log ++ [(s, Entry.op 1)] }))
        (fun _ => "n") (fun _ => "m") ⟨5⟩ 7 ⟨9⟩ ⟨cudaSuccess, [], 0⟩
      = ComputeAsync
        (fun s d => (Status.ok, { d with log := d.log ++ [(s, Entry.op 1)] }))
        (fun _ => "n") (fun _ => "m") ⟨5⟩ 7 ⟨5⟩ ⟨cudaSuccess, [], 0⟩ ∧
    (ComputeAsync
        (fun s d => (Status.ok, { d with log := d.log ++ [(s, Entry.op 1)] }))
        (fun _ => "n") (fun _ => "m") ⟨5⟩ 7 ⟨9⟩ ⟨cudaSuccess, [], 0⟩).2.1.Stream
      = 5 ∧
    ∃ tail,
      (ComputeAsync
          (fun s d => (Status.ok, { d with log := d.log ++ [(s, Entry.op 1)] }))
          (fun _ => "n") (fun _ => "m") ⟨5⟩ 7 ⟨9⟩ ⟨cudaSuccess, [], 0⟩).2.2.log
        = [] ++ [(5, Entry.op 1)] ++ tail ∧
      ∀ e ∈ tail, e.1 = 5 :=
  computeAsync_stream_rebinding
    (fun s d => (Status.ok, { d with log := d.log ++ [(s, Entry.op 1)] }))
    (fun _ => "n") (fun _ => "m") ⟨5⟩ 7 ⟨9⟩ ⟨cudaSuccess, [], 0⟩
    [(5, Entry.op 1)] rfl

/-- Setting slot `i` and taking `i + 1` elements yields the original first `i`
elements followed by the written value. -/
theorem set_take_eq {T : Type} (v : T) :
    ∀ (i : Nat) (buf : List T), i < buf.length →
      (buf.set i v).take (i + 1) = buf.take i ++ [v] := by
  intro i
  induction i with
  | zero =>
    intro buf h
    cases buf with
    | nil => simp at h
    | cons a t => simp
  | succ i ih =>
    intro buf h
    cases buf with
    | nil => simp at h
    | cons a t =>
      simp only [List.set_cons_succ, List.take_succ_cons, List.cons_append,
        List.cons.injEq, true_and]
      exact ih t (by simp at h; omega)

/-- The fill loop written over a buffer of length `i + n`, starting at slot
`i`, leaves the first `i` slots and replaces the remaining `n` slots by the
fill value. -/
theorem fillWrites_eq_append_replicate {T : Type} (v : T) :
    ∀ (n i : Nat) (buf : List T), buf.length = i + n →
      fillWrites buf v i n = buf.take i ++ List.replicate n v := by
  intro n
  induction n with
  | zero =>
    intro i buf h
    simp [fillWrites, List.take_of_length_le (show buf.length ≤ i by omega)]
  | succ n ih =>
    intro i buf h
    rw [fillWrites, ih (i + 1) (buf.set i v)
      (by simp only [List.length_set, h]; omega)]
    rw [set_take_eq v i buf (by omega)]
    simp [List.replicate_succ, List.append_assoc]

/-- C5: with a succeeding pinned allocation of `count` slots, the
fill-with-value constructor produces a staging buffer whose host copy holds
the fill value in each of its `count` slots — before any transfer: the device
copy is still absent and nothing was enqueued. -/
theorem mkFill_fills {T : Type} (alloc : HostPinnedAlloc T) (value : T)
    (count : Nat) (p : Nat) (init : List T)
    (halloc : alloc count = some (p, init)) (hlen : init.length = count) :
    CudaAsyncBuffer.mkFill alloc value count
      = .ok { gpu_copy_ := none,
              cpu_pinned_copy_ := some (p, List.replicate count value),
              count_ := count } := by
  have hfw : fillWrites init value 0 count = List.replicate count value := by
    have h := fillWrites_eq_append_replicate value count 0 init (by omega)
    simpa using h
  simp [CudaAsyncBuffer.mkFill, CudaAsyncBuffer.mkSized, AllocCpuPtr,
    CudaAsyncBuffer.mk0, halloc, Except.map, hfw]

/-- Executing pending copies preserves the number of device buffers. -/
theorem foldl_applyCopy_length {T : Type} :
    ∀ (l : List (PendingCopy T)) (bufs : List (List (Option T))),
      (l.foldl applyCopy bufs).length = bufs.length := by
  intro l
  induction l with
  | nil => intro bufs; rfl
  | cons c t ih =>
    intro bufs
    rw [List.foldl_cons, ih]
    simp [applyCopy]

/-- Pending copies that all target other device buffers leave buffer `g`
unchanged. -/
theorem foldl_applyCopy_getElem_ne {T : Type} (g : Nat) :
    ∀ (l : List (PendingCopy T)) (bufs : List (List (Option T))),
      (∀ c ∈ l, c.dst ≠ g) →
      (l.foldl applyCopy bufs)[g]? = bufs[g]? := by
  intro l
  induction l with
  | nil => intro bufs _; rfl
  | cons c t ih =>
    intro bufs h
    rw [List.foldl_cons,
      ih (applyCopy bufs c) (fun x hx => h x (List.mem_cons_of_mem c hx))]
    simp only [applyCopy]
    exact List.getElem?_set_ne (h c (List.mem_cons_self c t))

/-- C6: staging a host sequence with the span constructor and then calling
`CopyToGpu` on a stream whose enqueue is accepted succeeds, and once the
device has executed the pending copies (in enqueue order) the allocated device
buffer's first `vec.length` slots hold exactly the staged sequence's values. -/
theorem mkFromSpan_copyToGpu_roundTrip {T : Type} (alloc : HostPinnedAlloc T)
    (vec : List T) (p : Nat) (init : List T) (stream : Nat)
    (b : CudaAsyncBuffer T) (ps : ProviderState T)
    (halloc : alloc vec.length = some (p, init))
    (hlen : init.length = vec.length)
    (hb : CudaAsyncBuffer.mkFromSpan alloc vec = .ok b)
    (hwf : ∀ c ∈ ps.pending, c.dst < ps.devBufs.length) :
    (CopyToGpu stream cudaSuccess b ps).1 = Status.ok ∧
    ∃ g, (CopyToGpu stream cudaSuccess b ps).2.1.gpu_copy_ = some g ∧
      ((runPending (CopyToGpu stream cudaSuccess b ps).2.2).devBufs.getD g
          []).take vec.length
        = vec.map some := by
  have hvec : memcpyBytes init vec vec.length = vec := by
    simp [memcpyBytes, List.take_length, List.drop_eq_nil_of_le (le_of_eq hlen)]
  have hbv : b = ⟨none, some (p, vec), vec.length⟩ := by
    have hmk : CudaAsyncBuffer.mkFromSpan alloc vec
        = .ok (⟨none, some (p, vec), vec.length⟩ : CudaAsyncBuffer T) := by
      simp [CudaAsyncBuffer.mkFromSpan, CudaAsyncBuffer.mkSized, AllocCpuPtr,
        CudaAsyncBuffer.mk0, halloc, Except.map, hvec]
    rw [hmk] at hb
    injection hb with h
    exact h.symm
  subst hbv
  have hres : CopyToGpu stream cudaSuccess
      (⟨none, some (p, vec), vec.length⟩ : CudaAsyncBuffer T) ps
      = (Status.ok,
         ⟨some ps.devBufs.length, none, vec.length⟩,
         { devBufs := ps.devBufs ++ [List.replicate vec.length none],
           deferredPool := ps.deferredPool ++ [p],
           pending := ps.pending ++ [⟨stream, ps.devBufs.length, vec⟩] }) := by
    simp [CopyToGpu, GetScratchBuffer, cudaMemcpyAsyncH2D,
      AddDeferredReleaseCPUPtr, List.take_length]
  rw [hres]
  refine ⟨rfl, ps.devBufs.length, rfl, ?_⟩
  simp only [runPending, List.foldl_append, List.foldl_cons, List.foldl_nil]
  set M := ps.pending.foldl applyCopy
    (ps.devBufs ++ [List.replicate vec.length none]) with hM
  have hMg : M[ps.devBufs.length]? = some (List.replicate vec.length none) := by
    rw [hM, foldl_applyCopy_getElem_ne ps.devBufs.length ps.pending _
      (fun c hc => Nat.ne_of_lt (hwf c hc))]
    exact List.getElem?_concat_length _ _
  have hMlen : M.length = ps.devBufs.length + 1 := by
    rw [hM, foldl_applyCopy_length]
    simp
  have hgetD : M.getD ps.devBufs.length [] = List.replicate vec.length none := by
    rw [List.getD_eq_getElem?_getD, hMg]
    rfl
  simp only [applyCopy, hgetD]
  rw [List.drop_eq_nil_of_le (by simp), List.append_nil,
    List.getD_eq_getElem?_getD,
    List.getElem?_set_eq_of_lt _ (by omega)]
  exact List.take_of_length_le (by simp)

/-- Witness for C6: stage [1, 2, 3, 4], copy, run the device: the device
buffer's first four slots read back as [1, 2, 3, 4]. -/
theorem mkFromSpan_copyToGpu_roundTrip_witness :
    (CopyToGpu 2 cudaSuccess
        (⟨none, some (5, [1, 2, 3, 4]), 4⟩ : CudaAsyncBuffer Nat)
        ⟨[], [], []⟩).1 = Status.ok ∧
    ∃ g, (CopyToGpu 2 cudaSuccess
        (⟨none, some (5, [1, 2, 3, 4]), 4⟩ : CudaAsyncBuffer Nat)
        ⟨[], [], []⟩).2.1.gpu_copy_ = some g ∧
      ((runPending (CopyToGpu 2 cudaSuccess
          (⟨none, some (5, [1, 2, 3, 4]), 4⟩ : CudaAsyncBuffer Nat)
          ⟨[], [], []⟩).2.2).devBufs.getD g []).take ([1, 2, 3, 4] : List Nat).length
        = ([1, 2, 3, 4] : List Nat).map some :=
  mkFromSpan_copyToGpu_roundTrip (fun n => some (5, List.replicate n 0))
    [1, 2, 3, 4] 5 (List.replicate 4 0) 2 ⟨none, some (5, [1, 2, 3, 4]), 4⟩
    ⟨[], [], []⟩ rfl rfl rfl (by decide)

/-- Witness for C5: fill value 7, count 3 gives host buffer [7, 7, 7]. -/
theorem mkFill_fills_witness :
    CudaAsyncBuffer.mkFill (fun n => some (0, List.replicate n (0 : Nat))) 7 3
      = .ok { gpu_copy_ := none,
              cpu_pinned_copy_ := some (0, List.replicate 3 7), count_ := 3 } :=
  mkFill_fills (fun n => some (0, List.replicate n 0)) 7 3 0
    (List.replicate 3 0) rfl rfl

end Onnx
